import Mathlib

/-!
Verification of the energy-trace test-set generator
(src/energy_traces/test-generator.py), shallowly embedded over ℚ.

The Python program builds an hourly timestamp grid from 2021-01-01 00:00 to
2024-12-31 23:00, computes a deterministic baseline price per hour, perturbs
it with Gaussian noise, blends it with the previous hour via a fixed 80/20
recurrence, occasionally applies a multiplicative spike, clamps the result to
[0.02, 0.40], and serializes the series together with a two-line console
report.  Randomness is modelled as explicit draw streams; prices are exact
rationals.
-/

/-- A calendar instant at hour precision: the fields pandas exposes as
`dt.year`, `dt.month`, `dt.day`, `dt.hour`. -/
structure DateTime where
  year : Nat
  month : Nat
  day : Nat
  hour : Nat
deriving DecidableEq, Repr

/-- Gregorian leap-year rule (as used by pandas timestamps). -/
def isLeap (y : Nat) : Bool :=
  (y % 4 == 0 && y % 100 != 0) || y % 400 == 0

/-- Number of days in a calendar year. -/
def daysInYear (y : Nat) : Nat :=
  if isLeap y then 366 else 365

/-- Number of days in month `m` (1-based) of year `y`. -/
def daysInMonth (y : Nat) (m : Nat) : Nat :=
  if m = 2 then (if isLeap y then 29 else 28)
  else if m = 4 ∨ m = 6 ∨ m = 9 ∨ m = 11 then 30
  else 31

lemma daysInYear_pos (y : Nat) : 0 < daysInYear y := by
  unfold daysInYear; split <;> omega

lemma daysInMonth_pos (y m : Nat) : 0 < daysInMonth y m := by
  unfold daysInMonth; split
  · split <;> omega
  · split <;> omega

/-- Resolve a day offset `d` (0-based) counted from January 1 of year `y`
into the pair (calendar year, 0-based day-of-year). -/
def findYear (y : Nat) (d : Nat) : Nat × Nat :=
  if _h : d < daysInYear y then (y, d)
  else findYear (y + 1) (d - daysInYear y)
termination_by d
decreasing_by
  have := daysInYear_pos y
  omega

/-- Resolve a 0-based day-of-year `d` starting from month `m` of year `y`
into the pair (month, 1-based day-of-month). -/
def findMonth (y : Nat) (m : Nat) (d : Nat) : Nat × Nat :=
  if 12 ≤ m then (m, d + 1)
  else if d < daysInMonth y m then (m, d + 1)
  else findMonth y (m + 1) (d - daysInMonth y m)
termination_by 12 - m

/-- Convert an hour offset from the grid origin 2021-01-01 00:00 into a
calendar instant (the view pandas provides of a grid timestamp). -/
def dtOf (t : Nat) : DateTime :=
  let yd := findYear 2021 (t / 24)
  let md := findMonth yd.1 1 yd.2
  ⟨yd.1, md.1, md.2, t % 24⟩

/-- Days from the grid origin 2021-01-01 to January 1 of year `y`. -/
def daysBeforeYear (y : Nat) : Nat :=
  (List.range (y - 2021)).foldl (fun acc i => acc + daysInYear (2021 + i)) 0

/-- Days from January 1 to the first day of month `m` in year `y`. -/
def daysBeforeMonth (y m : Nat) : Nat :=
  (List.range (m - 1)).foldl (fun acc i => acc + daysInMonth y (1 + i)) 0

/-- Hour offset of a calendar instant from the grid origin 2021-01-01 00:00.
This is how pandas turns the `start` and `end` bounds of `date_range` into
positions on the hourly grid. -/
def hoursFromRef (dt : DateTime) : Nat :=
  (daysBeforeYear dt.year + daysBeforeMonth dt.year dt.month + (dt.day - 1)) * 24
    + dt.hour

/-- The `start="2021-01-01 00:00"` bound of the grid. -/
def startDT : DateTime := ⟨2021, 1, 1, 0⟩

/-- The `end="2024-12-31 23:00"` bound of the grid. -/
def endDT : DateTime := ⟨2024, 12, 31, 23⟩

/-- Number of hourly periods in the inclusive range, as
`pd.date_range(start, end, freq="h")` computes it. -/
def numPeriods : Nat := hoursFromRef endDT - hoursFromRef startDT + 1

/-- The grid of hour offsets underlying `pd.date_range`: an arithmetic
sequence of hourly instants starting at the origin. -/
def gridHours : List Nat := List.range numPeriods

/-- The `timestamps` sequence of `generate_prices`, as calendar instants. -/
def timestamps : List DateTime := gridHours.map dtOf

/-- The year-trend lookup table of `baseline_price`; a year outside the
table is a `KeyError`, modelled as `none`. -/
def yearFactor (y : Nat) : Option ℚ :=
  if y = 2021 then some 0.07
  else if y = 2022 then some 0.15
  else if y = 2023 then some 0.11
  else if y = 2024 then some 0.085
  else none

/-- Seasonal multiplier: winter months {12,1,2} → 1.25, summer {6,7,8} →
0.85, shoulder otherwise → 1.05. -/
def seasonMult (month : Nat) : ℚ :=
  if month = 12 ∨ month = 1 ∨ month = 2 then 1.25
  else if month = 6 ∨ month = 7 ∨ month = 8 then 0.85
  else 1.05

/-- Time-of-day multiplier by hour bucket. -/
def todMult (hour : Nat) : ℚ :=
  if hour < 6 then 0.85
  else if hour < 12 then 1.05
  else if hour < 18 then 1.15
  else if hour < 22 then 1.20
  else 1.00

/-- `baseline_price(dt)`: year factor × season multiplier × time-of-day
multiplier; `none` models the `KeyError` on an unsupported year. -/
def baseline_price (dt : DateTime) : Option ℚ :=
  (yearFactor dt.year).map (fun f => f * seasonMult dt.month * todMult dt.hour)

/-- The random draw streams consumed by `generate_prices`, indexed by loop
iteration: the Gaussian noise sample, the uniform [0,1) roll compared
against the spike probability, and the uniform [1.5,3.5] spike magnitude. -/
structure Draws where
  noise : Nat → ℚ
  spikeRoll : Nat → ℚ
  spikeMag : Nat → ℚ

/-- Clamp step of the loop body: `min(max(price, 0.02), 0.40)`. -/
def clampPrice (p : ℚ) : ℚ := min (max p 0.02) 0.40

/-- Spike step of the loop body: with the roll under 0.0005, multiply by the
drawn magnitude. -/
def applySpike (r : Draws) (i : Nat) (x : ℚ) : ℚ :=
  if r.spikeRoll i < 0.0005 then x * r.spikeMag i else x

/-- One iteration of the generation loop: smoothing (or the first-hour
base + noise), then spike, then clamp. -/
def stepPrice (r : Draws) (i : Nat) (prev : Option ℚ) (b : ℚ) : ℚ :=
  clampPrice (applySpike r i
    (match prev with
     | none => b + r.noise i
     | some pp => 0.8 * pp + 0.2 * (b + r.noise i)))

/-- The generation loop over the per-hour baselines, threading the previous
clamped output and the iteration index. -/
def genPrices (r : Draws) (i : Nat) (prev : Option ℚ) : List ℚ → List ℚ
  | [] => []
  | b :: bs =>
    let p := stepPrice r i prev b
    p :: genPrices r (i + 1) (some p) bs

/-- Baselines of a timestamp sequence; a `KeyError` (`none`) on any
timestamp aborts the loop, as the uncaught Python exception would. -/
def mapBaseline : List DateTime → Option (List ℚ)
  | [] => some []
  | dt :: rest =>
    match baseline_price dt, mapBaseline rest with
    | some b, some bs => some (b :: bs)
    | _, _ => none

/-- `generate_prices`: compute every baseline over the grid (propagating a
`KeyError` as `none`) and run the stochastic loop. -/
def generate_prices (r : Draws) : Option (List ℚ) :=
  (mapBaseline timestamps).map (genPrices r 0 none)

/-- A line of the console report. -/
inductive ConsoleLine where
  | rows (n : Nat)
  | priceRange (lo hi : ℚ)
deriving DecidableEq, Repr

/-- Minimum of a price series, as `df['price_per_kwh'].min()` computes it on
a nonempty column. -/
def listMin : List ℚ → ℚ
  | [] => 0
  | x :: xs => xs.foldl min x

/-- Maximum of a price series, as `df['price_per_kwh'].max()` computes it on
a nonempty column. -/
def listMax : List ℚ → ℚ
  | [] => 0
  | x :: xs => xs.foldl max x

/-- The two-line console report printed after serialization: the row count
of the written table, then the observed min/max price. -/
def consoleReport (prices : List ℚ) : List ConsoleLine :=
  [ConsoleLine.rows prices.length,
   ConsoleLine.priceRange (listMin prices) (listMax prices)]

/-- A concrete draw assignment: zero noise, spike roll 1 (never below the
0.0005 threshold, so no spike fires), magnitude 2. -/
def constDraws : Draws := ⟨fun _ => 0, fun _ => 1, fun _ => 2⟩

/-! ### Calendar facts about the fixed four-year grid -/

lemma numPeriods_eq : numPeriods = 35064 := by decide

lemma findYear_window (d : Nat) (hd : d < 1461) :
    findYear 2021 d = if d < 365 then (2021, d) else if d < 730 then (2022, d - 365)
      else if d < 1095 then (2023, d - 730) else (2024, d - 1095) := by
  have h21 : daysInYear 2021 = 365 := by norm_num [daysInYear, isLeap]
  have h22 : daysInYear 2022 = 365 := by norm_num [daysInYear, isLeap]
  have h23 : daysInYear 2023 = 365 := by norm_num [daysInYear, isLeap]
  by_cases c1 : d < 365
  · rw [findYear]; simp only [h21]; rw [dif_pos c1, if_pos c1]
  · by_cases c2 : d < 730
    · rw [findYear]; simp only [h21]; rw [dif_neg c1]
      show findYear 2022 (d - 365) = _
      rw [findYear]; simp only [h22]
      rw [dif_pos (by omega : d - 365 < 365), if_neg c1, if_pos c2]
    · by_cases c3 : d < 1095
      · rw [findYear]; simp only [h21]; rw [dif_neg c1]
        show findYear 2022 (d - 365) = _
        rw [findYear]; simp only [h22]
        rw [dif_neg (by omega : ¬ d - 365 < 365)]
        show findYear 2023 (d - 365 - 365) = _
        rw [findYear]; simp only [h23]
        rw [dif_pos (by omega : d - 365 - 365 < 365), if_neg c1, if_neg c2, if_pos c3]
        simp; omega
      · rw [findYear]; simp only [h21]; rw [dif_neg c1]
        show findYear 2022 (d - 365) = _
        rw [findYear]; simp only [h22]
        rw [dif_neg (by omega : ¬ d - 365 < 365)]
        show findYear 2023 (d - 365 - 365) = _
        rw [findYear]; simp only [h23]
        rw [dif_neg (by omega : ¬ d - 365 - 365 < 365)]
        show findYear 2024 (d - 365 - 365 - 365) = _
        rw [findYear]
        rw [dif_pos (by norm_num [daysInYear, isLeap]; omega :
              d - 365 - 365 - 365 < daysInYear 2024),
            if_neg c1, if_neg c2, if_neg c3]
        simp; omega

lemma yearOf_window (t : Nat) (ht : t < 35064) :
    (dtOf t).year = if t < 8760 then 2021 else if t < 17520 then 2022
      else if t < 26280 then 2023 else 2024 := by
  have hd : t / 24 < 1461 := by omega
  have hfy := findYear_window (t / 24) hd
  simp only [dtOf, hfy]
  split_ifs <;> simp_all <;> omega

lemma yearOf_supported (t : Nat) (ht : t < 35064) :
    (dtOf t).year = 2021 ∨ (dtOf t).year = 2022 ∨ (dtOf t).year = 2023 ∨
      (dtOf t).year = 2024 := by
  rw [yearOf_window t ht]
  split_ifs <;> simp

lemma mem_timestamps (x : DateTime) (hx : x ∈ timestamps) :
    ∃ t, t < 35064 ∧ x = dtOf t := by
  simp only [timestamps, gridHours, List.mem_map, List.mem_range, numPeriods_eq] at hx
  obtain ⟨t, ht, rfl⟩ := hx
  exact ⟨t, ht, rfl⟩

/-! ### The baseline lookup -/

lemma baseline_isSome (dt : DateTime)
    (h : dt.year = 2021 ∨ dt.year = 2022 ∨ dt.year = 2023 ∨ dt.year = 2024) :
    (baseline_price dt).isSome := by
  unfold baseline_price yearFactor
  rcases h with h | h | h | h <;> simp [h]

/-! ### The generation loop -/

lemma genPrices_length (r : Draws) :
    ∀ (bs : List ℚ) (i : Nat) (prev : Option ℚ),
      (genPrices r i prev bs).length = bs.length := by
  intro bs
  induction bs with
  | nil => intro i prev; rfl
  | cons b l ih => intro i prev; simp [genPrices, ih]

lemma mapBaseline_some :
    ∀ (l : List DateTime), (∀ x ∈ l, (baseline_price x).isSome) →
      ∃ bs, mapBaseline l = some bs ∧ bs.length = l.length := by
  intro l
  induction l with
  | nil => intro _; exact ⟨[], rfl, rfl⟩
  | cons a l ih =>
    intro h
    obtain ⟨b, hb⟩ := Option.isSome_iff_exists.mp (h a (by simp))
    obtain ⟨bs, hbs, hlen⟩ := ih (fun x hx => h x (by simp [hx]))
    exact ⟨b :: bs, by simp [mapBaseline, hb, hbs], by simp [hlen]⟩

lemma generate_prices_some (r : Draws) :
    ∃ ps, generate_prices r = some ps ∧ ps.length = timestamps.length := by
  obtain ⟨bs, hbs, hlen⟩ := mapBaseline_some timestamps (by
    intro x hx
    obtain ⟨t, ht, rfl⟩ := mem_timestamps x hx
    exact baseline_isSome _ (yearOf_supported t ht))
  exact ⟨genPrices r 0 none bs, by simp [generate_prices, hbs],
    by rw [genPrices_length, hlen]⟩

lemma timestamps_length : timestamps.length = 35064 := by
  simp [timestamps, gridHours, numPeriods_eq]

lemma genPrices_cons (r : Draws) (i : Nat) (prev : Option ℚ) (b : ℚ) (bs : List ℚ) :
    genPrices r i prev (b :: bs) =
      stepPrice r i prev b :: genPrices r (i + 1) (some (stepPrice r i prev b)) bs := rfl

lemma genPrices_get_succ (r : Draws) :
    ∀ (bs : List ℚ) (i : Nat) (prev : Option ℚ) (j : Nat) (p b : ℚ),
      (genPrices r i prev bs)[j]? = some p →
      bs[j + 1]? = some b →
      (genPrices r i prev bs)[j + 1]? = some (stepPrice r (i + j + 1) (some p) b) := by
  intro bs
  induction bs with
  | nil => intro i prev j p b hp hb; simp at hb
  | cons b0 l ih =>
    intro i prev j p b hp hb
    cases j with
    | zero =>
      rw [genPrices_cons] at hp ⊢
      simp only [List.getElem?_cons_zero, Option.some.injEq] at hp
      cases l with
      | nil => simp at hb
      | cons b1 l2 =>
        simp only [List.getElem?_cons_succ, List.getElem?_cons_zero,
          Option.some.injEq] at hb
        subst hb
        rw [genPrices_cons]
        simp only [List.getElem?_cons_succ, genPrices_cons, List.getElem?_cons_zero]
        rw [hp]
    | succ j' =>
      rw [genPrices_cons] at hp ⊢
      simp only [List.getElem?_cons_succ] at hp ⊢
      simp only [List.getElem?_cons_succ] at hb
      have hrec := ih (i + 1) (some (stepPrice r i prev b0)) j' p b hp hb
      have harith : i + 1 + j' + 1 = i + (j' + 1) + 1 := by omega
      rw [harith] at hrec
      exact hrec

lemma clampPrice_bounds (p : ℚ) : 0.02 ≤ clampPrice p ∧ clampPrice p ≤ 0.40 := by
  unfold clampPrice
  exact ⟨le_min (le_max_right p 0.02) (by norm_num), min_le_right _ _⟩

lemma stepPrice_bounds (r : Draws) (i : Nat) (prev : Option ℚ) (b : ℚ) :
    0.02 ≤ stepPrice r i prev b ∧ stepPrice r i prev b ≤ 0.40 :=
  clampPrice_bounds _

lemma genPrices_mem_bounds (r : Draws) :
    ∀ (bs : List ℚ) (i : Nat) (prev : Option ℚ) (p : ℚ),
      p ∈ genPrices r i prev bs → 0.02 ≤ p ∧ p ≤ 0.40 := by
  intro bs
  induction bs with
  | nil => intro i prev p hp; simp [genPrices] at hp
  | cons b l ih =>
    intro i prev p hp
    rw [genPrices_cons] at hp
    rcases List.mem_cons.mp hp with h | h
    · subst h; exact stepPrice_bounds r i prev b
    · exact ih _ _ p h

lemma clampPrice_eq_self (p : ℚ) (h1 : 0.02 ≤ p) (h2 : p ≤ 0.40) :
    clampPrice p = p := by
  unfold clampPrice; rw [max_eq_left h1, min_eq_left h2]

lemma genPrices_const_closed (r : Draws) (hnoise : ∀ i, r.noise i = 0)
    (hroll : ∀ i, ¬ r.spikeRoll i < 0.0005) (b : ℚ) (hb1 : 0.02 ≤ b) (hb2 : b ≤ 0.40) :
    ∀ (n i : Nat) (p : ℚ), 0.02 ≤ p → p ≤ 0.40 → ∀ j < n,
      (genPrices r i (some p) (List.replicate n b))[j]? =
        some ((0.8 : ℚ) ^ (j + 1) * p + b * (1 - 0.8 ^ (j + 1))) := by
  intro n
  induction n with
  | zero => intro i p _ _ j hj; omega
  | succ n ih =>
    intro i p hp1 hp2 j hj
    have hstep : stepPrice r i (some p) b = 0.8 * p + 0.2 * b := by
      unfold stepPrice applySpike
      rw [hnoise i, if_neg (hroll i), add_zero]
      exact clampPrice_eq_self _ (by linarith) (by linarith)
    rw [List.replicate_succ, genPrices_cons, hstep]
    cases j with
    | zero => simp; ring
    | succ j' =>
      simp only [List.getElem?_cons_succ]
      have hq1 : (0.02 : ℚ) ≤ 0.8 * p + 0.2 * b := by linarith
      have hq2 : (0.8 : ℚ) * p + 0.2 * b ≤ 0.40 := by linarith
      rw [ih (i + 1) _ hq1 hq2 j' (by omega)]
      congr 1
      ring

/-! ### Fold characterizations of the observed min/max -/

lemma foldl_min_le_init (xs : List ℚ) : ∀ a : ℚ, xs.foldl min a ≤ a := by
  induction xs with
  | nil => intro a; simp
  | cons x l ih =>
    intro a
    simp only [List.foldl_cons]
    exact le_trans (ih (min a x)) (min_le_left a x)

lemma foldl_min_le_mem (xs : List ℚ) : ∀ (a p : ℚ), p ∈ xs → xs.foldl min a ≤ p := by
  induction xs with
  | nil => intro a p hp; simp at hp
  | cons x l ih =>
    intro a p hp
    rcases List.mem_cons.mp hp with rfl | h
    · exact le_trans (foldl_min_le_init l (min a p)) (min_le_right a p)
    · exact ih (min a x) p h

lemma foldl_min_mem (xs : List ℚ) : ∀ a : ℚ, xs.foldl min a = a ∨ xs.foldl min a ∈ xs := by
  induction xs with
  | nil => intro a; left; rfl
  | cons x l ih =>
    intro a
    simp only [List.foldl_cons]
    rcases ih (min a x) with h | h
    · rcases min_cases a x with ⟨hc, _⟩ | ⟨hc, _⟩
      · left; rw [h, hc]
      · right; rw [h, hc]; exact List.mem_cons_self x l
    · right; exact List.mem_cons_of_mem x h

lemma le_foldl_max_init (xs : List ℚ) : ∀ a : ℚ, a ≤ xs.foldl max a := by
  induction xs with
  | nil => intro a; simp
  | cons x l ih =>
    intro a
    simp only [List.foldl_cons]
    exact le_trans (le_max_left a x) (ih (max a x))

lemma mem_le_foldl_max (xs : List ℚ) : ∀ (a p : ℚ), p ∈ xs → p ≤ xs.foldl max a := by
  induction xs with
  | nil => intro a p hp; simp at hp
  | cons x l ih =>
    intro a p hp
    rcases List.mem_cons.mp hp with rfl | h
    · exact le_trans (le_max_right a p) (le_foldl_max_init l (max a p))
    · exact ih (max a x) p h

lemma foldl_max_mem (xs : List ℚ) : ∀ a : ℚ, xs.foldl max a = a ∨ xs.foldl max a ∈ xs := by
  induction xs with
  | nil => intro a; left; rfl
  | cons x l ih =>
    intro a
    simp only [List.foldl_cons]
    rcases ih (max a x) with h | h
    · rcases max_cases a x with ⟨hc, _⟩ | ⟨hc, _⟩
      · left; rw [h, hc]
      · right; rw [h, hc]; exact List.mem_cons_self x l
    · right; exact List.mem_cons_of_mem x h

/-! ### Multiplier bounds -/

lemma seasonMult_bounds (m : Nat) : 0.85 ≤ seasonMult m ∧ seasonMult m ≤ 1.25 := by
  unfold seasonMult; split_ifs <;> norm_num

lemma todMult_bounds (h : Nat) : 0.85 ≤ todMult h ∧ todMult h ≤ 1.20 := by
  unfold todMult; split_ifs <;> norm_num

lemma todMult_pos (h : Nat) : 0 < todMult h := by
  unfold todMult; split_ifs <;> norm_num

/-! ### Claims -/

/-- C1: every hour of the series builder: the first output is
base + noise, later outputs blend 0.8 × previous output with
0.2 × (base + noise); the spike is applied after smoothing, the clamp last,
and the value carried to the next iteration is the final clamped price. -/
theorem series_builder_step_order (r : Draws) (bs : List ℚ) :
    (genPrices r 0 none bs).length = bs.length
    ∧ (∀ b, bs[0]? = some b →
        (genPrices r 0 none bs)[0]? =
          some (clampPrice (applySpike r 0 (b + r.noise 0))))
    ∧ (∀ j p b, (genPrices r 0 none bs)[j]? = some p → bs[j + 1]? = some b →
        (genPrices r 0 none bs)[j + 1]? =
          some (clampPrice (applySpike r (j + 1)
            (0.8 * p + 0.2 * (b + r.noise (j + 1)))))) := by
  refine ⟨genPrices_length r bs 0 none, ?_, ?_⟩
  · intro b hb
    cases bs with
    | nil => simp at hb
    | cons b0 l =>
      simp only [List.getElem?_cons_zero, Option.some.injEq] at hb
      subst hb
      rw [genPrices_cons]
      simp only [List.getElem?_cons_zero]
      rfl
  · intro j p b hp hb
    have hrec := genPrices_get_succ r bs 0 none j p b hp hb
    rw [Nat.zero_add] at hrec
    exact hrec

theorem series_builder_step_order_witness :
    (genPrices constDraws 0 none [0.1, 0.2, 0.3])[1]? =
      some (clampPrice (applySpike constDraws 1
        (0.8 * 0.1 + 0.2 * (0.2 + constDraws.noise 1)))) :=
  (series_builder_step_order constDraws [0.1, 0.2, 0.3]).2.2 0 0.1 0.2
    (by norm_num [genPrices, stepPrice, applySpike, clampPrice, constDraws,
      min_def, max_def])
    (by norm_num)

/-- C2: every generated price lies in [0.02, 0.40], for every possible
sequence of noise, spike-roll and spike-magnitude draws. -/
theorem prices_clamped :
    (∀ (r : Draws) (bs : List ℚ), ∀ p ∈ genPrices r 0 none bs,
      0.02 ≤ p ∧ p ≤ 0.40)
    ∧ (∀ (r : Draws) (ps : List ℚ), generate_prices r = some ps →
        ∀ p ∈ ps, 0.02 ≤ p ∧ p ≤ 0.40) := by
  constructor
  · intro r bs p hp
    exact genPrices_mem_bounds r bs 0 none p hp
  · intro r ps hps p hp
    unfold generate_prices at hps
    obtain ⟨bs, hmb, rfl⟩ := Option.map_eq_some'.mp hps
    exact genPrices_mem_bounds r bs 0 none p hp

theorem prices_clamped_witness :
    (0.02 : ℚ) ≤ 0.4 ∧ (0.4 : ℚ) ≤ 0.40 :=
  prices_clamped.1 constDraws [0.5] 0.4
    (by norm_num [genPrices, stepPrice, applySpike, clampPrice, constDraws,
      min_def, max_def])

/-- C3: the timestamp grid is the inclusive hourly range 2021-01-01T00:00 to
2024-12-31T23:00: exactly 35064 entries, the i-th being start + i hours
(hence strictly increasing, duplicate-free, with constant 1-hour spacing),
partitioned 8760/8760/8760/8784 over the years 2021..2024, and the output
has one price per timestamp. -/
theorem grid_shape :
    timestamps.length = 35064
    ∧ (∀ i < 35064, gridHours[i]? = some i)
    ∧ (∀ i < 35064, timestamps[i]? = some (dtOf i))
    ∧ (∀ i < 35064,
        ((dtOf i).year = 2021 ↔ i < 8760) ∧
        ((dtOf i).year = 2022 ↔ 8760 ≤ i ∧ i < 17520) ∧
        ((dtOf i).year = 2023 ↔ 17520 ≤ i ∧ i < 26280) ∧
        ((dtOf i).year = 2024 ↔ 26280 ≤ i ∧ i < 35064))
    ∧ (∀ r : Draws, ∃ ps, generate_prices r = some ps ∧ ps.length = 35064) := by
  refine ⟨timestamps_length, ?_, ?_, ?_, ?_⟩
  · intro i hi
    simp [gridHours, numPeriods_eq, List.getElem?_range, hi]
  · intro i hi
    simp [timestamps, gridHours, numPeriods_eq, List.getElem?_range, hi]
  · intro i hi
    have hy := yearOf_window i hi
    rw [hy]
    split_ifs <;> refine ⟨?_, ?_, ?_, ?_⟩ <;> omega
  · intro r
    obtain ⟨ps, hps, hlen⟩ := generate_prices_some r
    exact ⟨ps, hps, by rw [hlen, timestamps_length]⟩

theorem grid_shape_witness :
    gridHours[7]? = some 7 ∧ (dtOf 26280).year = 2024 :=
  ⟨grid_shape.2.1 7 (by norm_num),
   ((grid_shape.2.2.2.1 26280 (by norm_num)).2.2.2).mpr (by norm_num)⟩

/-- C4: for supported years, baseline_price is the product of the tabulated
year factor, season multiplier and time-of-day multiplier; in particular
2022-01-15T19:00 gives 0.225 and 2024-07-10T03:00 gives 0.0614125. -/
theorem baseline_formula (dt : DateTime)
    (h : dt.year = 2021 ∨ dt.year = 2022 ∨ dt.year = 2023 ∨ dt.year = 2024) :
    baseline_price dt = some (
      (if dt.year = 2021 then (0.07 : ℚ) else if dt.year = 2022 then 0.15
        else if dt.year = 2023 then 0.11 else 0.085)
      * (if dt.month = 12 ∨ dt.month = 1 ∨ dt.month = 2 then (1.25 : ℚ)
          else if dt.month = 6 ∨ dt.month = 7 ∨ dt.month = 8 then 0.85 else 1.05)
      * (if dt.hour < 6 then (0.85 : ℚ) else if dt.hour < 12 then 1.05
          else if dt.hour < 18 then 1.15 else if dt.hour < 22 then 1.20 else 1.00))
    ∧ baseline_price ⟨2022, 1, 15, 19⟩ = some 0.225
    ∧ baseline_price ⟨2024, 7, 10, 3⟩ = some 0.0614125 := by
  refine ⟨?_, by norm_num [baseline_price, yearFactor, seasonMult, todMult],
    by norm_num [baseline_price, yearFactor, seasonMult, todMult]⟩
  unfold baseline_price yearFactor seasonMult todMult
  rcases h with h | h | h | h <;> simp [h]

theorem baseline_formula_witness :
    baseline_price ⟨2022, 1, 15, 19⟩ = some 0.225 :=
  (baseline_formula ⟨2022, 1, 15, 19⟩ (by norm_num)).2.1

/-- C5: baseline_price fails exactly on years outside {2021, 2022, 2023,
2024}; every grid timestamp has a supported year, so the error branch never
fires during generation. -/
theorem baseline_error_iff :
    (∀ dt : DateTime, baseline_price dt = none ↔
      ¬(dt.year = 2021 ∨ dt.year = 2022 ∨ dt.year = 2023 ∨ dt.year = 2024))
    ∧ (∀ dt ∈ timestamps, (baseline_price dt).isSome)
    ∧ mapBaseline timestamps ≠ none := by
  refine ⟨?_, ?_, ?_⟩
  · intro dt
    unfold baseline_price yearFactor
    split_ifs <;> simp_all
  · intro dt hdt
    obtain ⟨t, ht, rfl⟩ := mem_timestamps dt hdt
    exact baseline_isSome _ (yearOf_supported t ht)
  · obtain ⟨bs, hbs, _⟩ := mapBaseline_some timestamps (by
      intro x hx
      obtain ⟨t, ht, rfl⟩ := mem_timestamps x hx
      exact baseline_isSome _ (yearOf_supported t ht))
    rw [hbs]
    simp

theorem baseline_error_iff_witness :
    (baseline_price ⟨1999, 5, 1, 12⟩ = none) ∧ (baseline_price (dtOf 0)).isSome :=
  ⟨(baseline_error_iff.1 ⟨1999, 5, 1, 12⟩).mpr (by norm_num),
   baseline_error_iff.2.1 (dtOf 0) (by
     refine List.mem_map_of_mem dtOf ?_
     simp [gridHours, numPeriods_eq])⟩

/-- C6: with zero noise, no spikes, constant baseline b, and an initial
price p0, both within the clamp bounds, the n-th price of the smoothing
recurrence is 0.8 to the n times p0 plus b times (1 minus 0.8 to the n),
for every n from 0 up to the series length. -/
theorem smoothing_closed_form (r : Draws) (hnoise : ∀ i, r.noise i = 0)
    (hroll : ∀ i, ¬ r.spikeRoll i < 0.0005) (p0 b : ℚ)
    (hp1 : 0.02 ≤ p0) (hp2 : p0 ≤ 0.40) (hb1 : 0.02 ≤ b) (hb2 : b ≤ 0.40)
    (m n : Nat) (hn : n ≤ m) :
    (p0 :: genPrices r 0 (some p0) (List.replicate m b))[n]? =
      some ((0.8 : ℚ) ^ n * p0 + b * (1 - (0.8 : ℚ) ^ n)) := by
  cases n with
  | zero =>
    simp only [List.getElem?_cons_zero, pow_zero]
    norm_num
  | succ j =>
    simp only [List.getElem?_cons_succ]
    exact genPrices_const_closed r hnoise hroll b hb1 hb2 m 0 p0 hp1 hp2 j
      (by omega)

theorem smoothing_closed_form_witness :
    ((0.1 : ℚ) :: genPrices constDraws 0 (some 0.1) (List.replicate 2 0.2))[2]? =
      some ((0.8 : ℚ) ^ 2 * 0.1 + 0.2 * (1 - (0.8 : ℚ) ^ 2)) :=
  smoothing_closed_form constDraws (fun _ => rfl)
    (fun _ => by norm_num [constDraws]) 0.1 0.2
    (by norm_num) (by norm_num) (by norm_num) (by norm_num) 2 2 le_rfl

/-- C7: for every supported year and fixed hour of day, the December
baseline strictly exceeds the June baseline of the same year and hour. -/
theorem winter_exceeds_summer (y d1 d2 hr : Nat)
    (hy : y = 2021 ∨ y = 2022 ∨ y = 2023 ∨ y = 2024) :
    ∃ a b : ℚ, baseline_price ⟨y, 12, d1, hr⟩ = some a ∧
      baseline_price ⟨y, 6, d2, hr⟩ = some b ∧ b < a := by
  have ht := todMult_pos hr
  have hsw : seasonMult 12 = 1.25 := by norm_num [seasonMult]
  have hss : seasonMult 6 = 0.85 := by norm_num [seasonMult]
  unfold baseline_price yearFactor
  rcases hy with rfl | rfl | rfl | rfl <;>
    exact ⟨_, _, rfl, rfl, by rw [hsw, hss]; nlinarith [ht]⟩

theorem winter_exceeds_summer_witness :
    ∃ a b : ℚ, baseline_price ⟨2023, 12, 5, 10⟩ = some a ∧
      baseline_price ⟨2023, 6, 5, 10⟩ = some b ∧ b < a :=
  winter_exceeds_summer 2023 5 5 10 (by norm_num)

/-- C8: the baseline is a pure function of the timestamp, and two runs of
the generator driven by identical draw streams produce identical output. -/
theorem deterministic_runs :
    (∀ dt : DateTime, baseline_price dt = baseline_price dt)
    ∧ (∀ r1 r2 : Draws, r1.noise = r2.noise → r1.spikeRoll = r2.spikeRoll →
        r1.spikeMag = r2.spikeMag → generate_prices r1 = generate_prices r2) := by
  refine ⟨fun _ => rfl, ?_⟩
  intro r1 r2 h1 h2 h3
  cases r1
  cases r2
  simp only at h1 h2 h3
  subst h1
  subst h2
  subst h3
  rfl

theorem deterministic_runs_witness :
    generate_prices constDraws = generate_prices constDraws :=
  deterministic_runs.2 constDraws constDraws rfl rfl rfl

/-- C9: the console report is exactly two lines: the row count of the
written series, then its observed minimum and maximum price, where the
reported min and max are attained members bounding every element. -/
theorem console_report_shape (ps : List ℚ) (hne : ps ≠ []) :
    (consoleReport ps).length = 2
    ∧ (consoleReport ps)[0]? = some (ConsoleLine.rows ps.length)
    ∧ (consoleReport ps)[1]? =
        some (ConsoleLine.priceRange (listMin ps) (listMax ps))
    ∧ (∀ p ∈ ps, listMin ps ≤ p ∧ p ≤ listMax ps)
    ∧ listMin ps ∈ ps ∧ listMax ps ∈ ps := by
  obtain ⟨x, xs, rfl⟩ := List.exists_cons_of_ne_nil hne
  refine ⟨rfl, rfl, rfl, ?_, ?_, ?_⟩
  · intro p hp
    constructor
    · rcases List.mem_cons.mp hp with rfl | h
      · exact foldl_min_le_init xs p
      · exact foldl_min_le_mem xs x p h
    · rcases List.mem_cons.mp hp with rfl | h
      · exact le_foldl_max_init xs p
      · exact mem_le_foldl_max xs x p h
  · rcases foldl_min_mem xs x with h | h
    · show xs.foldl min x ∈ x :: xs
      rw [h]
      exact List.mem_cons_self x xs
    · exact List.mem_cons_of_mem x h
  · rcases foldl_max_mem xs x with h | h
    · show xs.foldl max x ∈ x :: xs
      rw [h]
      exact List.mem_cons_self x xs
    · exact List.mem_cons_of_mem x h

theorem console_report_shape_witness :
    (consoleReport [0.1, 0.3]).length = 2 ∧
      (consoleReport [0.1, 0.3])[0]? = some (ConsoleLine.rows [0.1, 0.3].length) :=
  ⟨(console_report_shape [0.1, 0.3] (by simp)).1,
   (console_report_shape [0.1, 0.3] (by simp)).2.1⟩

/-- C10: on supported years the baseline always lies in
[0.050575, 0.225], strictly inside the clamp interval [0.02, 0.40]. -/
theorem baseline_within_clamp (dt : DateTime) (v : ℚ)
    (h : baseline_price dt = some v) :
    0.050575 ≤ v ∧ v ≤ 0.225 ∧ (0.02 : ℚ) < 0.050575 ∧ (0.225 : ℚ) < 0.40 := by
  obtain ⟨hs1, hs2⟩ := seasonMult_bounds dt.month
  obtain ⟨ht1, ht2⟩ := todMult_bounds dt.hour
  have k1 : (0 : ℚ) ≤ (seasonMult dt.month - 0.85) * (todMult dt.hour - 0.85) :=
    mul_nonneg (by linarith) (by linarith)
  have k2 : (0 : ℚ) ≤ (1.25 - seasonMult dt.month) * (1.20 - todMult dt.hour) :=
    mul_nonneg (by linarith) (by linarith)
  unfold baseline_price yearFactor at h
  split_ifs at h <;>
    simp only [Option.map_some', Option.map_none', Option.some.injEq,
      reduceCtorEq] at h
  all_goals subst h
  all_goals exact ⟨by nlinarith [k1, k2], by nlinarith [k1, k2],
    by norm_num, by norm_num⟩

theorem baseline_within_clamp_witness :
    (0.050575 : ℚ) ≤ 0.225 ∧ (0.225 : ℚ) ≤ 0.225 ∧
      (0.02 : ℚ) < 0.050575 ∧ (0.225 : ℚ) < 0.40 :=
  baseline_within_clamp ⟨2022, 1, 15, 19⟩ 0.225
    (by norm_num [baseline_price, yearFactor, seasonMult, todMult])
